import Mathlib

/-!
Shallow embedding of the RAG engine of the ai-portfolio backend:
`backend/app/services/rag_service.py` together with the retrieval steps of
`backend/app/api/v1/endpoints/chat.py`.

Python strings are modelled as lists of Unicode code points (`List Nat`).
External collaborators (the chat model call, the langchain text splitter,
`FAISS.from_documents`, the query embedder) are passed in as explicit
function arguments; a Python call that may raise is modelled with `Except`.
-/

/-- Code points of a string literal, the model of a Python `str`. -/
def codes (s : String) : List Nat := s.toList.map Char.toNat

/-- A langchain `Document`: a text body plus a metadata mapping. -/
structure Document where
  page_content : List Nat
  metadata : List (List Nat × List Nat)
  deriving DecidableEq

/-- A FAISS vector store: the embedding-vector/chunk pairs of one domain,
in insertion order. -/
structure VectorStore where
  entries : List (List Int × Document)
  deriving DecidableEq

/-- A langchain retriever handle: the underlying store plus the top-`k`
search parameter. -/
structure Retriever where
  store : VectorStore
  k : Nat
  deriving DecidableEq

/-- `as_retriever()` on a FAISS store keeps the library default `k = 4`. -/
def VectorStore.as_retriever (vs : VectorStore) : Retriever := ⟨vs, 4⟩

/-- The mutable fields of the `RAGService` singleton. -/
structure RAGService where
  personal_vector_store : Option VectorStore
  projects_vector_store : Option VectorStore
  deriving DecidableEq

/-- Modelled from the spec: the Vector Index's distance metric (squared
Euclidean distance between embedding vectors; FAISS L2). -/
def sqDist (u v : List Int) : Int :=
  ((u.zip v).map (fun p => (p.1 - p.2) * (p.1 - p.2))).sum

/-- Nearest-first ranking order on position-indexed entries: strictly smaller
distance to the query first, ties broken by insertion position. -/
def rankRel (q : List Int) (a b : Nat × List Int × Document) : Prop :=
  sqDist q a.2.1 < sqDist q b.2.1 ∨
    (sqDist q a.2.1 = sqDist q b.2.1 ∧ a.1 ≤ b.1)

instance (q : List Int) : DecidableRel (rankRel q) := fun a b => by
  unfold rankRel
  exact inferInstance

instance (q : List Int) : IsTrans (Nat × List Int × Document) (rankRel q) where
  trans a b c hab hbc := by
    rcases hab with h1 | ⟨h1, h2⟩ <;> rcases hbc with h3 | ⟨h3, h4⟩
    · exact Or.inl (lt_trans h1 h3)
    · exact Or.inl (h3 ▸ h1)
    · exact Or.inl (h1 ▸ h3)
    · exact Or.inr ⟨h1.trans h3, le_trans h2 h4⟩

instance (q : List Int) : IsTotal (Nat × List Int × Document) (rankRel q) where
  total a b := by
    rcases lt_trichotomy (sqDist q a.2.1) (sqDist q b.2.1) with h | h | h
    · exact Or.inl (Or.inl h)
    · rcases Nat.le_total a.1 b.1 with h2 | h2
      · exact Or.inl (Or.inr ⟨h, h2⟩)
      · exact Or.inr (Or.inr ⟨h.symm, h2⟩)
    · exact Or.inr (Or.inl h)

/-- Modelled from the spec: the Vector Index ranks all stored entries
nearest-first by the distance metric, ties broken by insertion order. -/
def VectorStore.rank (vs : VectorStore) (q : List Int) :
    List (Nat × List Int × Document) :=
  List.insertionSort (rankRel q) vs.entries.enum

/-- Modelled from the spec: the top-`k` nearest-neighbour query returns the
`k` nearest stored chunks, nearest-first. -/
def VectorStore.query (vs : VectorStore) (q : List Int) (k : Nat) :
    List Document :=
  ((vs.rank q).take k).map (fun e => e.2.2)

/-- `retriever.invoke(question)`: embed the question with the store's
embedder and run the top-`k` query. -/
def Retriever.invoke (r : Retriever) (embed : List Nat → List Int)
    (question : List Nat) : List Document :=
  r.store.query (embed question) r.k

/-- ASCII whitespace, as recognised by Python `str.strip`. -/
def pyIsSpace (n : Nat) : Bool :=
  decide (n = 32 ∨ n = 9 ∨ n = 10 ∨ n = 13 ∨ n = 11 ∨ n = 12)

/-- Python `str.lower` on one code point (ASCII letters). -/
def lowerCode (n : Nat) : Nat := if 65 ≤ n ∧ n ≤ 90 then n + 32 else n

/-- Python `str.lower`. -/
def pyLower (s : List Nat) : List Nat := s.map lowerCode

/-- Python `str.strip`: remove leading and trailing whitespace. -/
def pyStrip (s : List Nat) : List Nat :=
  (((s.dropWhile pyIsSpace).reverse).dropWhile pyIsSpace).reverse

/-- The `personal_info` domain label. -/
def personalLabel : List Nat := codes "personal_info"

/-- The `project_info` domain label. -/
def projectLabel : List Nat := codes "project_info"

/-- `RAGService.route_query`. The `ollama.chat` call is passed in as
`chatResult`: `Except.ok content` models a reply whose message content is
`content`, `Except.error e` models a raised exception, caught by the
method's `except` clause. The method reads no service state and assigns
none, so the state is returned unchanged at every return site. -/
def RAGService.route_query {ε : Type} (s : RAGService)
    (chatResult : Except ε (List Nat)) : List Nat × RAGService :=
  match chatResult with
  | .error _ => (personalLabel, s)
  | .ok content =>
    let category := pyLower (pyStrip content)
    if personalLabel <:+: category then (personalLabel, s)
    else if projectLabel <:+: category then (projectLabel, s)
    else (personalLabel, s)

/-- `RAGService.get_retriever`: exact-match dispatch on the category with a
fallback to the personal store when the requested store is absent. -/
def RAGService.get_retriever (s : RAGService) (category : List Nat) :
    Option Retriever :=
  if category = personalLabel ∧ s.personal_vector_store.isSome then
    s.personal_vector_store.map VectorStore.as_retriever
  else if category = projectLabel ∧ s.projects_vector_store.isSome then
    s.projects_vector_store.map VectorStore.as_retriever
  else
    s.personal_vector_store.map VectorStore.as_retriever

/-- The retrieval step of `process_chat_message`: obtain the retriever for
the classified category; when it is `None` the endpoint answers without
retrieving any chunks (modelled as the empty sequence), otherwise it invokes
the retriever on the question. -/
def RAGService.retrieve (s : RAGService) (embed : List Nat → List Int)
    (question category : List Nat) : List Document :=
  match s.get_retriever category with
  | none => []
  | some r => r.invoke embed question

/-- `RAGService._create_vector_store`. The langchain text splitter and
`FAISS.from_documents` are external calls passed in as functions that may
raise. An empty document list returns `None` before either is invoked. -/
def RAGService._create_vector_store {ε : Type}
    (splitter : List Document → Except ε (List Document))
    (from_documents : List Document → Except ε VectorStore)
    (documents : List Document) : Except ε (Option VectorStore) :=
  if documents.isEmpty then .ok none
  else do
    let chunks ← splitter documents
    let vs ← from_documents chunks
    .ok (some vs)

/-- `RAGService.build_knowledge_bases`: builds the personal store, assigns
it, then builds the project store and assigns it. The method installs no
exception handler, so the pair returned is the service state as the method
leaves it together with the exception that escaped it, if any. -/
def RAGService.build_knowledge_bases {ε : Type}
    (splitter : List Document → Except ε (List Document))
    (from_documents : List Document → Except ε VectorStore) (s : RAGService)
    (personal_docs project_docs : List Document) : RAGService × Option ε :=
  match RAGService._create_vector_store splitter from_documents personal_docs with
  | .error e => (s, some e)
  | .ok p =>
    let s1 : RAGService := { s with personal_vector_store := p }
    match RAGService._create_vector_store splitter from_documents project_docs with
    | .error e => (s1, some e)
    | .ok pr => ({ s1 with projects_vector_store := pr }, none)

/-- Modelled from the spec: the Chunker (the langchain
`RecursiveCharacterTextSplitter`, an external collaborator that is not part
of this repository) cuts a body into segments of at most `size` code points,
consecutive segments starting `step` positions apart so that each shares
`size - step` code points with its predecessor. The `max 1` guard only
realises the spec precondition `chunk_overlap < chunk_size`. -/
def chunkAux (size step : Nat) (body : List Nat) : List (List Nat) :=
  if _h : body.length ≤ size then [body]
  else body.take size :: chunkAux size step (body.drop (max 1 step))
termination_by body.length
decreasing_by
  simp only [List.length_drop]
  omega

/-- Modelled from the spec: splitting with parameters `chunk_size` and
`chunk_overlap` advances by `chunk_size - chunk_overlap` positions per
segment. -/
def split_text (size overlap : Nat) (body : List Nat) : List (List Nat) :=
  chunkAux size (size - overlap) body

/-- Concatenation of the tails of the later chunks: each chunk after the
first contributes its text with the first `overlap` code points (the part
shared with its predecessor) removed. -/
def tailsFrom (overlap : Nat) (cs : List (List Nat)) : List Nat :=
  cs.foldr (fun c acc => c.drop overlap ++ acc) []

/-- Reassembly of a chunk list: the first chunk in full, every later chunk
with its leading overlap removed. -/
def reassemble (overlap : Nat) : List (List Nat) → List Nat
  | [] => []
  | c :: cs => c ++ tailsFrom overlap cs

/-- A concrete personal document, used for closed instances. -/
def personalDoc : Document := ⟨codes "cv", []⟩

/-- A concrete project document, used for closed instances. -/
def projectDoc : Document := ⟨codes "repo", []⟩

/-- A splitter that raises exactly on the personal document collection. -/
def failingSplitter : List Document → Except Unit (List Document) :=
  fun docs => if docs = [personalDoc] then .error () else .ok docs

/-- An index construction that always succeeds, pairing every chunk with a
trivial embedding vector. -/
def okFromDocuments : List Document → Except Unit VectorStore :=
  fun chunks => .ok ⟨chunks.map (fun d => ([], d))⟩

/-- A concrete ten-entry vector store, used for closed instances. -/
def tenEntryStore : VectorStore :=
  ⟨(List.range 10).map (fun i => ([Int.ofNat i], ⟨[i], []⟩))⟩

/-- C5: for every question, if the language-model call inside `route_query`
raises any exception, `route_query` returns `personal_info`; the method is
total on the error case, so no error reaches its caller. -/
theorem route_query_error {ε : Type} (s : RAGService) (e : ε) :
    (s.route_query (Except.error e)).1 = personalLabel := rfl

/-- C9: for every question, `route_query` leaves both vector indices
unchanged: the `personal_vector_store` and `projects_vector_store` fields
hold the same values after the call as before it. -/
theorem route_query_frame {ε : Type} (s : RAGService)
    (chatResult : Except ε (List Nat)) :
    (s.route_query chatResult).2.personal_vector_store =
        s.personal_vector_store ∧
      (s.route_query chatResult).2.projects_vector_store =
        s.projects_vector_store := by
  cases chatResult with
  | error e => exact ⟨rfl, rfl⟩
  | ok content =>
    unfold RAGService.route_query
    dsimp only
    split
    · exact ⟨rfl, rfl⟩
    · split
      · exact ⟨rfl, rfl⟩
      · exact ⟨rfl, rfl⟩

/-- C6: an empty document collection yields a null index for that domain
and no exception; `_create_vector_store` applied to the empty list returns
`None` whatever the splitter and the index construction do (so neither is
invoked), and building from two empty collections leaves both stores null
with no exception escaping. -/
theorem create_vector_store_empty {ε : Type}
    (splitter : List Document → Except ε (List Document))
    (from_documents : List Document → Except ε VectorStore) :
    RAGService._create_vector_store splitter from_documents [] =
        Except.ok none ∧
      ∀ s : RAGService,
        RAGService.build_knowledge_bases splitter from_documents s [] [] =
          (⟨none, none⟩, none) :=
  ⟨rfl, fun _ => rfl⟩

/-- C10: for every category outside the two-label enumeration,
`get_retriever` does not raise and behaves exactly like the null-index
fallback: the personal store's retriever when that store is non-null,
`None` otherwise. -/
theorem get_retriever_unknown_category (s : RAGService) (category : List Nat)
    (h1 : category ≠ personalLabel) (h2 : category ≠ projectLabel) :
    s.get_retriever category =
      s.personal_vector_store.map VectorStore.as_retriever := by
  unfold RAGService.get_retriever
  simp [h1, h2]

/-- C10 witness: the unknown category "general" on a service with a
personal store falls through to the personal retriever. -/
theorem get_retriever_unknown_category_witness :
    codes "general" ≠ personalLabel ∧ codes "general" ≠ projectLabel ∧
      (⟨some ⟨[]⟩, none⟩ : RAGService).get_retriever (codes "general") =
        (Option.some (⟨[]⟩ : VectorStore)).map VectorStore.as_retriever :=
  ⟨by decide, by decide,
    get_retriever_unknown_category ⟨some ⟨[]⟩, none⟩ (codes "general")
      (by decide) (by decide)⟩

/-- C2: for every domain label, when both stores are null the retrieval
step returns the empty chunk sequence (the endpoint's `None` check fires
and nothing is retrieved), and no exception arises. -/
theorem retrieve_both_null (s : RAGService) (embed : List Nat → List Int)
    (question category : List Nat)
    (h1 : s.personal_vector_store = none)
    (h2 : s.projects_vector_store = none) :
    s.retrieve embed question category = [] := by
  unfold RAGService.retrieve RAGService.get_retriever
  rw [h1, h2]
  simp

/-- C2 witness: a service with both stores null retrieves nothing for an
arbitrary category. -/
theorem retrieve_both_null_witness :
    (⟨none, none⟩ : RAGService).personal_vector_store = none ∧
      (⟨none, none⟩ : RAGService).projects_vector_store = none ∧
      (⟨none, none⟩ : RAGService).retrieve (fun _ => []) (codes "hi")
        (codes "project_info") = [] :=
  ⟨rfl, rfl,
    retrieve_both_null ⟨none, none⟩ (fun _ => []) (codes "hi")
      (codes "project_info") rfl rfl⟩

/-- C3 counterexample: a splitter failure on the personal collection
escapes `build_knowledge_bases` and the project index is never built (it
stays null), even though the very same pipeline builds the project index
when run on the project collection alone. -/
theorem build_knowledge_bases_not_isolated :
    RAGService._create_vector_store failingSplitter okFromDocuments
        [personalDoc] = Except.error () ∧
      RAGService._create_vector_store failingSplitter okFromDocuments
        [projectDoc] = Except.ok (some ⟨[([], projectDoc)]⟩) ∧
      RAGService.build_knowledge_bases failingSplitter okFromDocuments
        ⟨none, none⟩ [personalDoc] [projectDoc] = (⟨none, none⟩, some ()) :=
  ⟨rfl, rfl, rfl⟩

/-- C3 amended: the two builds are sequenced without isolation. A failure
while building the personal index propagates at once: the whole method
reports the exception, both stores keep their prior values and the project
build is never attempted. Only the reverse direction is safe: a failure
while building the project index leaves the already-assigned personal
index in place. -/
theorem build_knowledge_bases_sequencing {ε : Type}
    (splitter : List Document → Except ε (List Document))
    (from_documents : List Document → Except ε VectorStore) (s : RAGService)
    (personal_docs project_docs : List Document) :
    (∀ e, RAGService._create_vector_store splitter from_documents
          personal_docs = Except.error e →
        RAGService.build_knowledge_bases splitter from_documents s
          personal_docs project_docs = (s, some e)) ∧
      (∀ p e, RAGService._create_vector_store splitter from_documents
            personal_docs = Except.ok p →
        RAGService._create_vector_store splitter from_documents
            project_docs = Except.error e →
        RAGService.build_knowledge_bases splitter from_documents s
          personal_docs project_docs =
            ({ s with personal_vector_store := p }, some e)) := by
  constructor
  · intro e he
    unfold RAGService.build_knowledge_bases
    rw [he]
  · intro p e hp he
    unfold RAGService.build_knowledge_bases
    rw [hp, he]

/-- C3 amended witness: with the collections swapped, the personal build
succeeds and is kept although the project build then fails. -/
theorem build_knowledge_bases_sequencing_witness :
    RAGService.build_knowledge_bases failingSplitter okFromDocuments
        ⟨none, none⟩ [projectDoc] [personalDoc] =
      (⟨some ⟨[([], projectDoc)]⟩, none⟩, some ()) :=
  (build_knowledge_bases_sequencing failingSplitter okFromDocuments
      ⟨none, none⟩ [projectDoc] [personalDoc]).2
    (some ⟨[([], projectDoc)]⟩) () rfl rfl

/-- Lowering a code point does not change whether it is whitespace. -/
theorem pyIsSpace_lowerCode (n : Nat) : pyIsSpace (lowerCode n) = pyIsSpace n := by
  unfold lowerCode
  split
  · rename_i h
    unfold pyIsSpace
    rw [decide_eq_decide]
    omega
  · rfl

/-- Python `lower` and `strip` commute on code-point lists. -/
theorem pyStrip_pyLower (s : List Nat) :
    pyStrip (pyLower s) = pyLower (pyStrip s) := by
  have hfun : (pyIsSpace ∘ lowerCode) = pyIsSpace := funext pyIsSpace_lowerCode
  unfold pyStrip pyLower
  rw [List.dropWhile_map, hfun, ← List.map_reverse, List.dropWhile_map, hfun,
    ← List.map_reverse]

/-- The stripped string is an infix of the original. -/
theorem pyStrip_infix_self (s : List Nat) : pyStrip s <:+: s := by
  have h1 : s.dropWhile pyIsSpace <:+ s := List.dropWhile_suffix _
  have h0 : ((s.dropWhile pyIsSpace).reverse).dropWhile pyIsSpace <:+
      (s.dropWhile pyIsSpace).reverse := List.dropWhile_suffix _
  have h2 : pyStrip s <+: s.dropWhile pyIsSpace := by
    rw [← List.reverse_suffix]
    simpa [pyStrip] using h0
  exact h2.isInfix.trans h1.isInfix

/-- A nonempty run of non-whitespace code points survives `dropWhile`. -/
theorem infix_dropWhile_of_not_space (p : Nat → Bool) (n l : List Nat)
    (hne : n ≠ []) (hn : ∀ c ∈ n, p c = false) (h : n <:+: l) :
    n <:+: l.dropWhile p := by
  obtain ⟨a, b, hab⟩ := h
  subst hab
  rw [List.append_assoc, List.dropWhile_append]
  split
  · cases n with
    | nil => exact absurd rfl hne
    | cons c t =>
      have hc : p c = false := hn c (List.mem_cons_self c t)
      rw [List.cons_append, List.dropWhile_cons, hc]
      simp only [Bool.false_eq_true, if_false]
      exact ((c :: t).prefix_append b).isInfix
  · exact List.infix_append' _ _ _

/-- A nonempty run of non-whitespace code points survives `strip`. -/
theorem infix_pyStrip_of_not_space (n s : List Nat) (hne : n ≠ [])
    (hn : ∀ c ∈ n, pyIsSpace c = false) (h : n <:+: s) :
    n <:+: pyStrip s := by
  have h1 : n <:+: s.dropWhile pyIsSpace :=
    infix_dropWhile_of_not_space _ _ _ hne hn h
  have h2 : n.reverse <:+: (s.dropWhile pyIsSpace).reverse :=
    List.reverse_infix.mpr h1
  have h3 : n.reverse <:+:
      ((s.dropWhile pyIsSpace).reverse).dropWhile pyIsSpace :=
    infix_dropWhile_of_not_space _ _ _ (by simpa using hne)
      (fun c hc => hn c (List.mem_reverse.mp hc)) h2
  have h4 : n.reverse <:+: (pyStrip s).reverse := by
    simpa [pyStrip, List.reverse_reverse] using h3
  exact List.reverse_infix.mp h4

/-- C4: for every model response whose lower-cased text contains neither
label, or contains both, `route_query` classifies it as `personal_info`. -/
theorem route_query_default (ε : Type) (s : RAGService) (resp : List Nat)
    (h : (¬ personalLabel <:+: pyLower resp ∧
            ¬ projectLabel <:+: pyLower resp) ∨
         (personalLabel <:+: pyLower resp ∧
            projectLabel <:+: pyLower resp)) :
    (s.route_query (Except.ok resp : Except ε (List Nat))).1 =
      personalLabel := by
  unfold RAGService.route_query
  dsimp only
  rcases h with ⟨h1, h2⟩ | ⟨h1, h2⟩
  · have hp : ¬ personalLabel <:+: pyLower (pyStrip resp) := fun hc =>
      h1 (by rw [← pyStrip_pyLower] at hc
             exact hc.trans (pyStrip_infix_self _))
    have hq : ¬ projectLabel <:+: pyLower (pyStrip resp) := fun hc =>
      h2 (by rw [← pyStrip_pyLower] at hc
             exact hc.trans (pyStrip_infix_self _))
    rw [if_neg hp, if_neg hq]
  · have hp : personalLabel <:+: pyLower (pyStrip resp) :=
      pyStrip_pyLower resp ▸
        infix_pyStrip_of_not_space _ _ (by decide) (by decide) h1
    rw [if_pos hp]

/-- C4 witness: a response mentioning neither label is classified as
`personal_info`. -/
theorem route_query_default_witness :
    ((¬ personalLabel <:+: pyLower (codes "other") ∧
        ¬ projectLabel <:+: pyLower (codes "other")) ∨
      (personalLabel <:+: pyLower (codes "other") ∧
        projectLabel <:+: pyLower (codes "other"))) ∧
      ((⟨none, none⟩ : RAGService).route_query
          (Except.ok (codes "other") : Except Unit (List Nat))).1 =
        personalLabel :=
  ⟨Or.inl (by decide),
    route_query_default Unit ⟨none, none⟩ (codes "other")
      (Or.inl (by decide))⟩

/-- The payload of an entry of `enumFrom` is an element of the base list. -/
theorem snd_mem_of_mem_enumFrom {α : Type} :
    ∀ (k : Nat) (l : List α) (x : Nat × α), x ∈ l.enumFrom k → x.2 ∈ l := by
  intro k l
  induction l generalizing k with
  | nil =>
    intro x hx
    simp at hx
  | cons a t ih =>
    intro x hx
    rw [List.enumFrom_cons] at hx
    rcases List.mem_cons.mp hx with h | h
    · rw [h]
      exact List.mem_cons_self a t
    · exact List.mem_cons_of_mem a (ih (k + 1) x h)

/-- C1: requesting `project_info` when the project store is null but the
personal store is not falls back to the personal store's retriever, and
every chunk the subsequent retriever query returns is drawn from the
personal index. -/
theorem retrieve_project_fallback (s : RAGService) (vs : VectorStore)
    (embed : List Nat → List Int) (question : List Nat)
    (hproj : s.projects_vector_store = none)
    (hpers : s.personal_vector_store = some vs) :
    s.get_retriever projectLabel = some vs.as_retriever ∧
      ∀ d ∈ s.retrieve embed question projectLabel,
        d ∈ vs.entries.map Prod.snd := by
  have hget : s.get_retriever projectLabel = some vs.as_retriever := by
    unfold RAGService.get_retriever
    rw [hproj, hpers]
    rw [if_neg (fun hcon => absurd hcon.1 (by decide))]
    rw [if_neg (fun hcon => by simpa using hcon.2)]
    rfl
  refine ⟨hget, ?_⟩
  intro d hd
  unfold RAGService.retrieve at hd
  rw [hget] at hd
  unfold Retriever.invoke VectorStore.as_retriever VectorStore.query at hd
  obtain ⟨e, he, rfl⟩ := List.mem_map.mp hd
  have he2 : e ∈ vs.rank (embed question) :=
    (List.take_sublist 4 _).subset he
  have he3 : e ∈ vs.entries.enum := by
    simpa [VectorStore.rank] using he2
  have he4 : e.2 ∈ vs.entries :=
    snd_mem_of_mem_enumFrom 0 _ _ (by simpa [List.enum] using he3)
  exact List.mem_map_of_mem Prod.snd he4

/-- C1 witness: a one-chunk personal index answers a `project_info`
request through the fallback. -/
theorem retrieve_project_fallback_witness :
    (⟨some ⟨[([], personalDoc)]⟩, none⟩ : RAGService).projects_vector_store
        = none ∧
      (⟨some ⟨[([], personalDoc)]⟩, none⟩ : RAGService).get_retriever
          projectLabel =
        some (VectorStore.as_retriever ⟨[([], personalDoc)]⟩) ∧
      ∀ d ∈ (⟨some ⟨[([], personalDoc)]⟩, none⟩ : RAGService).retrieve
          (fun _ => []) (codes "q") projectLabel,
        d ∈ (⟨[([], personalDoc)]⟩ : VectorStore).entries.map Prod.snd := by
  refine ⟨rfl, ?_, ?_⟩
  · exact (retrieve_project_fallback _ _ (fun _ => []) (codes "q") rfl rfl).1
  · exact (retrieve_project_fallback _ _ (fun _ => []) (codes "q") rfl rfl).2

/-- Dropping `n` from a `take m` is taking `m - n` after dropping `n`. -/
theorem drop_take_comm (n m : Nat) (l : List Nat) (h : n ≤ m) :
    (l.take m).drop n = (l.drop n).take (m - n) := by
  rw [List.take_drop, Nat.add_sub_cancel' h]

/-- Reassembly helper: over a chunked body, dropping each chunk's leading
overlap and concatenating all of them recovers the body past its first
overlap-many code points. -/
theorem tailsFrom_chunkAux (size step : Nat) (h1 : 1 ≤ step)
    (h2 : step ≤ size) :
    ∀ (n : Nat) (body : List Nat), body.length ≤ n →
      tailsFrom (size - step) (chunkAux size step body) =
        body.drop (size - step) := by
  intro n
  induction n with
  | zero =>
    intro body hb
    have hnil : body = [] := List.length_eq_zero.mp (Nat.le_zero.mp hb)
    subst hnil
    unfold chunkAux
    simp [tailsFrom]
  | succ n ih =>
    intro body hb
    unfold chunkAux
    split
    · rename_i hle
      simp [tailsFrom]
    · rename_i hgt
      rw [max_eq_right h1]
      have hlen : (body.drop step).length ≤ n := by
        simp only [List.length_drop]
        omega
      unfold tailsFrom
      simp only [List.foldr_cons]
      have hrec := ih (body.drop step) hlen
      unfold tailsFrom at hrec
      rw [hrec]
      have e1 : (body.drop step).drop (size - step) = body.drop size := by
        rw [List.drop_drop]
        congr 1
        omega
      rw [e1, drop_take_comm (size - step) size body (by omega)]
      have e2 : size - (size - step) = step := by omega
      rw [e2]
      have e3 : body.drop size = (body.drop (size - step)).drop step := by
        rw [List.drop_drop]
        congr 1
        omega
      rw [e3, List.take_append_drop]

/-- Chunking then reassembling is the identity on the body, for any
chunk size and advance step with `1 ≤ step ≤ size`. -/
theorem reassemble_chunkAux (size step : Nat) (h1 : 1 ≤ step)
    (h2 : step ≤ size) (body : List Nat) :
    reassemble (size - step) (chunkAux size step body) = body := by
  unfold chunkAux
  split
  · rename_i hle
    simp [reassemble, tailsFrom]
  · rename_i hgt
    rw [max_eq_right h1]
    show List.take size body ++
        tailsFrom (size - step) (chunkAux size step (List.drop step body)) =
      body
    rw [tailsFrom_chunkAux size step h1 h2 (body.drop step).length
      (body.drop step) le_rfl]
    have e1 : (body.drop step).drop (size - step) = body.drop size := by
      rw [List.drop_drop]
      congr 1
      omega
    rw [e1, List.take_append_drop]

/-- C7: splitting a document body with chunk_size 1000 and chunk_overlap
100 yields chunks whose concatenation, after removing each later chunk's
100-code-point overlap with its predecessor, reconstructs the body exactly,
with no content dropped. -/
theorem split_text_reassemble (body : List Nat) :
    reassemble 100 (split_text 1000 100 body) = body := by
  simpa [split_text] using
    reassemble_chunkAux 1000 900 (by norm_num) (by norm_num) body

/-- C8: on an index holding ten chunks, the default top-4 query returns
exactly four chunks, taken from the nearest-first ranking of the stored
entries under the distance metric, and any `k` beyond the population
returns all stored chunks (as a permutation of the stored chunk list),
without error. -/
theorem query_topk (vs : VectorStore) (q : List Int)
    (h : vs.entries.length = 10) :
    (vs.query q 4).length = 4 ∧
      List.Pairwise (fun a b => sqDist q a.2.1 ≤ sqDist q b.2.1)
        ((vs.rank q).take 4) ∧
      vs.query q 4 = ((vs.rank q).take 4).map (fun e => e.2.2) ∧
      ∀ k, 10 < k → List.Perm (vs.query q k) (vs.entries.map Prod.snd) := by
  have hlen : (vs.rank q).length = 10 := by
    unfold VectorStore.rank
    rw [(List.perm_insertionSort (rankRel q) vs.entries.enum).length_eq]
    simp [List.enum, List.enumFrom_length, h]
  refine ⟨?_, ?_, rfl, ?_⟩
  · unfold VectorStore.query
    rw [List.length_map, List.length_take, hlen]
    rfl
  · have hs : List.Sorted (rankRel q) (vs.rank q) :=
      List.sorted_insertionSort (rankRel q) vs.entries.enum
    have hp : List.Pairwise (rankRel q) ((vs.rank q).take 4) :=
      List.Pairwise.sublist (List.take_sublist 4 _) hs
    refine hp.imp ?_
    intro a b hab
    rcases hab with hlt | ⟨heq, _⟩
    · exact le_of_lt hlt
    · exact le_of_eq heq
  · intro k hk
    unfold VectorStore.query
    rw [List.take_of_length_le (by omega : (vs.rank q).length ≤ k)]
    have heq : vs.entries.enum.map
          (fun e : Nat × List Int × Document => e.2.2) =
        vs.entries.map Prod.snd := by
      rw [show (fun e : Nat × List Int × Document => e.2.2) =
            Prod.snd ∘ Prod.snd from rfl, ← List.map_map]
      simp only [List.enum]
      rw [List.enumFrom_map_snd]
    rw [← heq]
    exact (List.perm_insertionSort (rankRel q) vs.entries.enum).map
      (fun e => e.2.2)

/-- C8 witness: a concrete ten-entry store satisfies the population
hypothesis, so the top-4 query returns four chunks nearest-first and an
oversized `k` returns all ten. -/
theorem query_topk_witness :
    tenEntryStore.entries.length = 10 ∧
      ((tenEntryStore.query [0] 4).length = 4 ∧
        List.Pairwise (fun a b => sqDist [0] a.2.1 ≤ sqDist [0] b.2.1)
          ((tenEntryStore.rank [0]).take 4) ∧
        tenEntryStore.query [0] 4 =
          ((tenEntryStore.rank [0]).take 4).map (fun e => e.2.2) ∧
        ∀ k, 10 < k →
          List.Perm (tenEntryStore.query [0] k) (tenEntryStore.entries.map Prod.snd)) :=
  ⟨rfl, query_topk tenEntryStore [0] rfl⟩
